import Mathlib

/-!
Formal model of the `video_generator` pipeline (Python repository).

Each definition below is a shallow embedding of a function of the source,
translated clause by clause:

* `concat_scenes`, `concatOffsets`, `minD` — `FFmpegAdapter.concat_scenes`
  and its helpers (`src/adapters/ffmpeg_adapter.py`).  Probing, the xfade
  command and the concat demuxer are effectful, so the embedding takes the
  probe results, the success of the xfade command and the music path as
  parameters and returns a description (`AssembleAction`) of the command
  the adapter would run.  `actionOutputDur` is the standard ffmpeg
  semantics of those commands on the duration level: the concat demuxer
  sums durations, an `xfade` at offset `o` with second input of duration
  `d` yields `o + d`, a plain re-encode keeps the duration.
* `render_title_card` — `FFmpegAdapter.render_title_card`, reduced to the
  numeric fields of the generated command (source durations and the two
  fade envelopes).
* `search_video_check` — the cache check at the top of
  `PexelsAdapter.search_video`.
* `search_video_net` — the retry structure of `PexelsAdapter.search_video`
  together with `PexelsAdapter._fallback_download`, over an oracle of
  network outcomes and an explicit fuel (the Python recursion depth).
* `pollLoop` / `pollVideoStatus` — `HeyGenAdapter._poll_video_status`.
* `resolveMedia`, `lineCalls`, `executeCalls`, `selectMusic` — the media
  resolution branch and the external-call structure of
  `GenerateVideoUseCase.execute` (`src/app/use_cases.py`).

Durations are rationals (the Python floats never overflow or round in the
claims considered, which are about the symbolic offset arithmetic).
-/

/-- Mirror of `src.domain.models.VideoAsset` (file path, width, height). -/
structure VideoAsset where
  file_path : String
  width : Nat
  height : Nat
deriving DecidableEq, Repr

/-- Mirror of `src.domain.models.ScriptLine`.  The source field `type` is
kept under the same name. -/
structure ScriptLine where
  text : String
  search_query : String
  type : String
  highlight_word : Option String
  custom_media_path : Option String
  scene_type : String
deriving DecidableEq, Repr

/-! ### Sequence assembler (`FFmpegAdapter.concat_scenes`) -/

/-- Action performed by `FFmpegAdapter.concat_scenes`: which ffmpeg command
is ultimately issued, and which music path (if any) is forwarded to it.
`invalid` stands for the unhandled empty-input case (Python would raise a
`ValueError` from `min([])`). -/
inductive AssembleAction where
  | invalid : AssembleAction
  | singleCopy : Option String → AssembleAction
  | simpleConcat : Option String → AssembleAction
  | xfadeChain : List ℚ → Option String → AssembleAction
deriving DecidableEq, Repr

/-- Python `min(durations)` (defined for nonempty lists; the head is used
as a default so the function is total). -/
def minD (l : List ℚ) : ℚ := l.foldr min l.headI

/-- Offsets of the xfade chain built by `concat_scenes`: the first
operation uses `durations[0] - transition_duration`, and the operation
added at loop index `i ∈ range(2, len)` uses
`sum(durations[:i]) - i * transition_duration`. -/
def concatOffsets (durations : List ℚ) (t : ℚ) : List ℚ :=
  (durations.headI - t) ::
    (List.range' 2 (durations.length - 2)).map
      (fun i => (durations.take i).sum - (i : ℚ) * t)

/-- Decision structure of `FFmpegAdapter.concat_scenes`.
`probed` holds one entry per scene file: `some d` if ffprobe returned
duration `d`, `none` if probing failed for that file.  `xfadeOk` tells
whether the xfade compositing subprocess exits zero.  The branches follow
the source in order: the single-scene shortcut, the probe-failure
fallback (music not forwarded), the too-short fallback (music not
forwarded), the xfade chain, and the exception handler's fallback (music
forwarded). -/
def concat_scenes (probed : List (Option ℚ)) (t : ℚ) (xfadeOk : Bool)
    (music : Option String) : AssembleAction :=
  if probed.length == 1 then .singleCopy music
  else if probed.isEmpty then .invalid
  else if probed.any (fun d => d.isNone) then .simpleConcat none
  else
    let ds := probed.reduceOption
    if minD ds < 2 * t then .simpleConcat none
    else if xfadeOk then .xfadeChain (concatOffsets ds t) music
    else .simpleConcat music

/-- Duration-level semantics of the command described by an
`AssembleAction`, given the input durations: the concat demuxer plays the
inputs back to back, an xfade chain ends at the last offset plus the last
input's duration, and the single-scene re-encode keeps the duration. -/
def actionOutputDur (durations : List ℚ) : AssembleAction → ℚ
  | .invalid => 0
  | .singleCopy _ => durations.headI
  | .simpleConcat _ => durations.sum
  | .xfadeChain offsets _ => offsets.getLastD 0 + durations.getLastD 0

/-! ### Title card (`FFmpegAdapter.render_title_card`) -/

/-- Numeric fields of the ffmpeg command built by `render_title_card`:
the `d=` of the `color` and `anullsrc` lavfi sources, and the two `fade`
filters `fade=t=in:st=0:d=0.5` and `fade=t=out:st=duration-0.5:d=0.5`. -/
structure TitleCardSpec where
  bgDuration : ℚ
  audioDuration : ℚ
  fadeInStart : ℚ
  fadeInDur : ℚ
  fadeOutStart : ℚ
  fadeOutDur : ℚ
deriving DecidableEq, Repr

/-- Embedding of `FFmpegAdapter.render_title_card` (numeric content of the
generated command). -/
def render_title_card (duration : ℚ) : TitleCardSpec :=
  { bgDuration := duration
    audioDuration := duration
    fadeInStart := 0
    fadeInDur := 0.5
    fadeOutStart := duration - 0.5
    fadeOutDur := 0.5 }

/-- Default of the `duration` parameter of `render_title_card`. -/
def TITLE_CARD_DEFAULT_DURATION : ℚ := 3

/-- Output duration of the title-card command: both lavfi sources carry
`d=duration` and no `-t` is given, so the output lasts as long as the
shorter source. -/
def titleCardOutDur (c : TitleCardSpec) : ℚ := min c.bgDuration c.audioDuration

/-! ### Stock-footage cache check (`PexelsAdapter.search_video`, head) -/

/-- First step taken by `PexelsAdapter.search_video`: either the cached
result (file present and non-empty — the function returns at once with an
assumed 1920x1080 asset and touches the network not at all) or the HTTP
search it proceeds to. -/
inductive SearchStep where
  | cached : VideoAsset → SearchStep
  | network : String → SearchStep
deriving DecidableEq, Repr

/-- Embedding of the cache check at the top of
`PexelsAdapter.search_video`: `if os.path.exists(output_path) and
os.path.getsize(output_path) > 0: return VideoAsset(output_path, 1920,
1080)`. -/
def search_video_check (query output_path : String) (fileExists : Bool)
    (fileSize : Nat) : SearchStep :=
  if fileExists && decide (0 < fileSize) then
    .cached ⟨output_path, 1920, 1080⟩
  else .network query

/-! ### Background-music selection (`GenerateVideoUseCase.execute`) -/

/-- Embedding of the music-selection step of the driver: when background
music is enabled and a music service is configured, the track lookup runs
under `try/except`; an exception is printed and the run continues with
`music_path = None`. -/
def selectMusic (enableMusic hasMusicService : Bool)
    (trackResult : Except String String) : Option String :=
  if enableMusic && hasMusicService then
    match trackResult with
    | .ok p => some p
    | .error _ => none
  else none

/-! ### Stock-footage retry structure (`PexelsAdapter.search_video` and
`PexelsAdapter._fallback_download`) -/

/-- Outcome of one network attempt of `search_video` once the cache check
has been passed: `ok` means the HTTP search succeeded and a file was
downloaded; `fail` covers both an empty result list and any raised
exception — all of them reach `self._fallback_download(output_path)`. -/
inductive NetOutcome where
  | ok : NetOutcome
  | fail : NetOutcome
deriving DecidableEq, Repr

/-- Result of the `search_video` / `_fallback_download` recursion under a
given fuel (recursion-depth bound): a downloaded asset at the output path,
the terminal `RuntimeError("Failed to download any video asset.")`, or
`spinning` when the recursion is still running after `fuel` attempts. -/
inductive SearchFinal where
  | asset : String → SearchFinal
  | failure : SearchFinal
  | spinning : SearchFinal
deriving DecidableEq, Repr

/-- Python list/string prefix test on characters. -/
def isPrefixL : List Char → List Char → Bool
  | [], _ => true
  | _ :: _, [] => false
  | a :: as, b :: bs => a == b && isPrefixL as bs

/-- Occurrence of a character list inside another, at any position. -/
def occursL (sub : List Char) : List Char → Bool
  | [] => isPrefixL sub []
  | c :: cs => isPrefixL sub (c :: cs) || occursL sub cs

/-- Python `sub in s` on strings. -/
def strContains (s sub : String) : Bool := occursL sub.data s.data

/-- Query used by `_fallback_download` for its generic retry. -/
def GENERIC_FALLBACK_QUERY : String := "abstract digital background"

/-- Embedding of the retry structure of `PexelsAdapter.search_video`
composed with `PexelsAdapter._fallback_download`, for a request that is
not served from the cache.  `net k` is the outcome of the `k`-th network
attempt.  On a failed attempt the source runs `_fallback_download`, whose
guard is `if "abstract" not in output_path`: when the output path does
not contain `"abstract"` it calls `search_video("abstract digital
background", output_path, 0)` again, otherwise it raises the terminal
`RuntimeError`.  `fuel` bounds the recursion depth so the definition is
total; a run that consumes all fuel is reported as `spinning`. -/
def search_video_net (net : Nat → NetOutcome) :
    Nat → Nat → String → String → SearchFinal
  | 0, _, _, _ => .spinning
  | fuel + 1, k, _query, output_path =>
    match net k with
    | .ok => .asset output_path
    | .fail =>
      if strContains output_path "abstract" then .failure
      else search_video_net net fuel (k + 1) GENERIC_FALLBACK_QUERY output_path

/-! ### Avatar status polling (`HeyGenAdapter._poll_video_status`) -/

/-- Status strings returned by the HeyGen status endpoint, as the source
distinguishes them; `completed` carries the (possibly missing)
`video_url`. -/
inductive HeyGenStatus where
  | completed : Option String → HeyGenStatus
  | failed : String → HeyGenStatus
  | pending : HeyGenStatus
  | processing : HeyGenStatus
  | unknown : String → HeyGenStatus
deriving DecidableEq, Repr

/-- Result of `_poll_video_status`: the video URL, one of the raised
exceptions, or the timeout exception raised after the loop.  `fuelOut`
marks an exhausted fuel in the embedding (shown below never to occur for
sufficient fuel). -/
inductive PollOutcome where
  | url : String → PollOutcome
  | apiError : String → PollOutcome
  | timeout : Nat → PollOutcome
  | fuelOut : PollOutcome
deriving DecidableEq, Repr

/-- Embedding of the polling loop of `HeyGenAdapter._poll_video_status`:
`while elapsed < max_wait_seconds`, check `status k` for the `k`-th
request; `completed` returns the URL (or raises when the URL is empty),
`failed` and unknown statuses raise, `pending`/`processing` sleep
`poll_interval` seconds and add it to `elapsed`.  Leaving the loop raises
the timeout error carrying `max_wait_seconds`. -/
def pollLoop (status : Nat → HeyGenStatus) (maxWait interval : Nat) :
    Nat → Nat → Nat → PollOutcome
  | 0, elapsed, _ =>
    if elapsed < maxWait then .fuelOut else .timeout maxWait
  | fuel + 1, elapsed, k =>
    if elapsed < maxWait then
      match status k with
      | .completed (some u) => .url u
      | .completed none => .apiError "Video completed but no URL provided"
      | .failed e => .apiError e
      | .pending => pollLoop status maxWait interval fuel (elapsed + interval) (k + 1)
      | .processing => pollLoop status maxWait interval fuel (elapsed + interval) (k + 1)
      | .unknown _ => .apiError "Unknown HeyGen status"
    else .timeout maxWait

/-- Default `max_wait_seconds` of `_poll_video_status`. -/
def MAX_WAIT_SECONDS : Nat := 600

/-- Default `poll_interval` of `_poll_video_status`. -/
def POLL_INTERVAL : Nat := 5

/-- `_poll_video_status` at its default parameters.  The fuel
`MAX_WAIT_SECONDS + 1` is sufficient (each iteration either returns or
adds `POLL_INTERVAL ≥ 1` to `elapsed`); sufficiency and independence of
the fuel are proved below. -/
def pollVideoStatus (status : Nat → HeyGenStatus) : PollOutcome :=
  pollLoop status MAX_WAIT_SECONDS POLL_INTERVAL (MAX_WAIT_SECONDS + 1) 0 0

/-! ### Driver media resolution and external calls
(`GenerateVideoUseCase.execute`) -/

/-- External network requests the driver can cause: a speech-synthesis
request, a stock-footage search request, an avatar-generation request. -/
inductive ExtCall where
  | ttsRequest : String → ExtCall
  | stockRequest : String → ExtCall
  | avatarRequest : String → ExtCall
deriving DecidableEq, Repr

/-- Python truthiness of an optional string (`None` and `""` are falsy). -/
def truthy : Option String → Bool
  | none => false
  | some s => !s.isEmpty

/-- Python `re.findall(r'\w+', text)`: maximal runs of word characters
(alphanumeric or underscore). -/
def wordsOf (text : String) : List String :=
  (text.split (fun c => !(c.isAlphanum || c == '_'))).filter
    (fun w => !w.isEmpty)

/-- One step of Python `max(words, key=len)`: keep the accumulator unless
the new word is strictly longer (so ties keep the earlier word, as
`max` does). -/
def pickLonger (acc : Option String) (w : String) : Option String :=
  match acc with
  | none => some w
  | some b => if b.length < w.length then some w else some b

/-- Python `max(words, key=len)` (first word of maximal length), `none`
for an empty list. -/
def longestWord (text : String) : Option String :=
  (wordsOf text).foldl pickLonger none

/-- Fallback query substituted when an operator-supplied media path is
missing (`use_cases.py`). -/
def FALLBACK_QUERY : String := "abstract dark luxury texture cinematic"

/-- Result of the media-resolution branch of the driver for one
broll/speech line: which query (if any) is passed to
`media.search_video`, the resulting video path, and the line's
`highlight_word` after the possible backfill. -/
structure MediaChoice where
  searchRequest : Option String
  videoPath : String
  highlightAfter : Option String
deriving DecidableEq, Repr

/-- Embedding of step B of `GenerateVideoUseCase.execute` (media
resolution): if `line.custom_media_path` is truthy and the file exists,
the custom path is used directly; if truthy but missing, the fixed
fallback query is searched and, when `line.highlight_word` is falsy and
the line's text contains at least one word, the longest word is written
into `highlight_word`; otherwise the line's own `search_query` is
searched. -/
def resolveMedia (line : ScriptLine) (customExists : Bool)
    (rawPath : String) : MediaChoice :=
  match line.custom_media_path with
  | some p =>
    if p.isEmpty then ⟨some line.search_query, rawPath, line.highlight_word⟩
    else if customExists then ⟨none, p, line.highlight_word⟩
    else
      ⟨some FALLBACK_QUERY, rawPath,
        if truthy line.highlight_word then line.highlight_word
        else
          match longestWord line.text with
          | some w => some w
          | none => line.highlight_word⟩
  | none => ⟨some line.search_query, rawPath, line.highlight_word⟩

/-- External requests issued while the driver processes one script line,
given the filesystem (existence and size of paths).  Title lines render
locally (no request); avatar lines with a configured avatar provider make
one avatar request; all remaining lines first make a speech-synthesis
request (the source calls `tts.generate_audio` unconditionally) and then
resolve media, where `search_video` reaches the network only when the
cache check fails. -/
def lineCalls (line : ScriptLine) (idx : Nat) (hasAvatar : Bool)
    (fexists : String → Bool) (fsize : String → Nat) : List ExtCall :=
  if line.scene_type == "title" || line.type == "title" then []
  else if line.scene_type == "avatar" && hasAvatar then
    [.avatarRequest line.text]
  else
    let rawPath := "assets/video_raw_" ++ toString idx ++ ".mp4"
    let customExists :=
      match line.custom_media_path with
      | some p => fexists p
      | none => false
    let mc := resolveMedia line customExists rawPath
    .ttsRequest line.text ::
      (match mc.searchRequest with
       | none => []
       | some q =>
         match search_video_check q rawPath (fexists rawPath) (fsize rawPath) with
         | .cached _ => []
         | .network q2 => [.stockRequest q2])

/-- External requests issued by `GenerateVideoUseCase.execute` over a
whole script (lines processed in order, paths indexed by position). -/
def executeCalls (lines : List ScriptLine) (hasAvatar : Bool)
    (fexists : String → Bool) (fsize : String → Nat) : List ExtCall :=
  (lines.enum.map
    (fun p => lineCalls p.2 p.1 hasAvatar fexists fsize)).flatten

/-! ## Helper lemmas -/

/-- A lower bound of a list and of the seed bounds the min-fold. -/
theorem le_foldr_min (c h : ℚ) (l : List ℚ) (hh : c ≤ h)
    (hl : ∀ d ∈ l, c ≤ d) : c ≤ l.foldr min h := by
  induction l with
  | nil => exact hh
  | cons a l ih =>
    exact le_min (hl a (List.mem_cons_self a l))
      (ih (fun d hd => hl d (List.mem_cons_of_mem a hd)))

/-- A lower bound of a nonempty list bounds its Python `min`. -/
theorem le_minD (c : ℚ) (l : List ℚ) (hne : l ≠ [])
    (hl : ∀ d ∈ l, c ≤ d) : c ≤ minD l := by
  unfold minD
  exact le_foldr_min c l.headI l
    (hl l.headI (by cases l with
      | nil => exact absurd rfl hne
      | cons a l => exact List.mem_cons_self a l)) hl

/-- The min-fold is below the seed and below every element. -/
theorem foldr_min_le (h : ℚ) (l : List ℚ) :
    (l.foldr min h ≤ h) ∧ ∀ d ∈ l, l.foldr min h ≤ d := by
  induction l with
  | nil => exact ⟨le_refl h, by simp⟩
  | cons a l ih =>
    refine ⟨le_trans (min_le_right _ _) ih.1, ?_⟩
    intro d hd
    rcases List.mem_cons.1 hd with h1 | h1
    · exact h1 ▸ min_le_left _ _
    · exact le_trans (min_le_right _ _) (ih.2 d h1)

/-- The Python `min` of a list is at most any member. -/
theorem minD_le (l : List ℚ) (d : ℚ) (hd : d ∈ l) : minD l ≤ d :=
  (foldr_min_le l.headI l).2 d hd

/-- Stripping the `some`s introduced by mapping recovers the list. -/
theorem reduceOption_map_some_eq (l : List ℚ) :
    (l.map some).reduceOption = l := by
  induction l with
  | nil => rfl
  | cons a l ih => simp [List.reduceOption_cons_of_some, ih]

/-- A list of `some`s has no `none` entry. -/
theorem any_isNone_map_some (l : List ℚ) :
    (l.map some).any (fun d => d.isNone) = false := by
  induction l with
  | nil => rfl
  | cons a l ih => simp [ih]

/-- Branch structure of `concat_scenes` when every probe succeeded and
there are at least two fragments. -/
theorem concat_scenes_all_probed (ds : List ℚ) (t : ℚ) (ok : Bool)
    (m : Option String) (h2 : 2 ≤ ds.length) :
    concat_scenes (ds.map some) t ok m =
      (if minD ds < 2 * t then .simpleConcat none
       else if ok then .xfadeChain (concatOffsets ds t) m
       else .simpleConcat m) := by
  match ds, h2 with
  | a :: b :: l, _ =>
    show concat_scenes (some a :: some b :: l.map some) t ok m = _
    have hred : (some a :: some b :: l.map some).reduceOption = a :: b :: l :=
      reduceOption_map_some_eq (a :: b :: l)
    have hany : (some a :: some b :: l.map some).any (fun d => d.isNone) = false :=
      any_isNone_map_some (a :: b :: l)
    have hlen : (((some a :: some b :: l.map some).length == 1)) = false := by
      simp [List.length_map]
    simp only [concat_scenes, hred, hany, hlen]
    simp

/-- Indexing into the xfade offset list: the entry at index `k` (the
`k+1`-st cross-fade operation) is the sum of the first `k+1` durations
minus `(k+1)` transition lengths. -/
theorem concatOffsets_getElem? (ds : List ℚ) (t : ℚ) (k : ℕ)
    (h2 : 2 ≤ ds.length) (hk : k < ds.length - 1) :
    (concatOffsets ds t)[k]? =
      some ((ds.take (k + 1)).sum - ((k + 1 : ℕ) : ℚ) * t) := by
  cases k with
  | zero =>
    match ds, h2 with
    | a :: l, _ => simp [concatOffsets]
  | succ k =>
    have hcons : (concatOffsets ds t)[k + 1]? =
        ((List.range' 2 (ds.length - 2)).map
          (fun i => (ds.take i).sum - (i : ℚ) * t))[k]? := by
      simp [concatOffsets]
    rw [hcons, List.getElem?_map,
      List.getElem?_range' 2 1 (show k < ds.length - 2 by omega)]
    have he : 2 + 1 * k = k + 1 + 1 := by omega
    rw [he]
    rfl

/-- The offset list of an `N`-fragment chain has `N - 1` entries. -/
theorem concatOffsets_length (ds : List ℚ) (t : ℚ) (h2 : 2 ≤ ds.length) :
    (concatOffsets ds t).length = ds.length - 1 := by
  simp only [concatOffsets, List.length_cons, List.length_map,
    List.length_range']
  omega

/-- Dropping the last element of a nonempty list and adding it back to the
sum recovers the total sum. -/
theorem sum_take_pred_add_getLastD (a : ℚ) (l : List ℚ) :
    ((a :: l).take ((a :: l).length - 1)).sum + (a :: l).getLastD 0
      = (a :: l).sum := by
  induction l generalizing a with
  | nil => simp
  | cons b l ih =>
    have ht : (a :: b :: l).take ((a :: b :: l).length - 1)
        = a :: (b :: l).take ((b :: l).length - 1) := by
      simp [List.take_succ_cons]
    have hg : (a :: b :: l).getLastD 0 = (b :: l).getLastD 0 := by
      rw [List.getLastD_cons, List.getLastD_cons, List.getLastD_cons]
    rw [ht, hg, List.sum_cons, List.sum_cons, add_assoc, ih b]

/-- The last xfade offset is the sum of all but the last duration minus
`(N-1)` transition lengths. -/
theorem concatOffsets_getLastD (ds : List ℚ) (t : ℚ) (h2 : 2 ≤ ds.length) :
    (concatOffsets ds t).getLastD 0 =
      (ds.take (ds.length - 1)).sum - ((ds.length - 1 : ℕ) : ℚ) * t := by
  rw [List.getLastD_eq_getLast?, List.getLast?_eq_getElem?,
    concatOffsets_length ds t h2]
  have he : ds.length - 1 - 1 + 1 = ds.length - 1 := by omega
  rw [concatOffsets_getElem? ds t (ds.length - 1 - 1) h2 (by omega), he]
  rfl

/-! ## Claim theorems -/

/-- C1: for `N ≥ 2` fragments with probed durations `ds` and transition
length `t` such that every duration is at least `2t`, `concat_scenes`
(with a succeeding xfade command) builds the xfade chain whose offset
list has `N - 1` entries, the `i`-th operation's offset equals the sum of
the first `i` durations minus `i·t`, and the chain's output duration is
`(Σ dᵢ) − (N−1)·t`. -/
theorem C1_xfade_offsets (ds : List ℚ) (t : ℚ) (m : Option String)
    (h2 : 2 ≤ ds.length) (hmin : ∀ d ∈ ds, 2 * t ≤ d) :
    concat_scenes (ds.map some) t true m
        = AssembleAction.xfadeChain (concatOffsets ds t) m
    ∧ (concatOffsets ds t).length = ds.length - 1
    ∧ (∀ i : ℕ, 1 ≤ i → i < ds.length →
        (concatOffsets ds t)[i - 1]? =
          some ((ds.take i).sum - (i : ℚ) * t))
    ∧ actionOutputDur ds (AssembleAction.xfadeChain (concatOffsets ds t) m)
        = ds.sum - ((ds.length : ℚ) - 1) * t := by
  have hne : ds ≠ [] := by
    intro h
    rw [h] at h2
    simp at h2
  have hnlt : ¬ (minD ds < 2 * t) := not_lt.2 (le_minD _ _ hne hmin)
  refine ⟨?_, concatOffsets_length ds t h2, ?_, ?_⟩
  · rw [concat_scenes_all_probed ds t true m h2, if_neg hnlt]
    rfl
  · intro i h1 hi
    have hg := concatOffsets_getElem? ds t (i - 1) h2 (by omega)
    have he : i - 1 + 1 = i := by omega
    rw [he] at hg
    exact hg
  · show (concatOffsets ds t).getLastD 0 + ds.getLastD 0 = _
    rw [concatOffsets_getLastD ds t h2]
    match ds, hne with
    | a :: l, _ =>
      have hsum := sum_take_pred_add_getLastD a l
      have hc : (((a :: l).length - 1 : ℕ) : ℚ) = ((a :: l).length : ℚ) - 1 := by
        rw [Nat.cast_sub (by simp)]
        simp
      rw [hc]
      linarith [hsum]

/-- Witness for C1: two fragments of `3.0` seconds with `t = 0.4` give the
spec's expected output duration `5.6`. -/
theorem C1_xfade_offsets_witness :
    concat_scenes ([3, 3].map some) (2/5) true none
        = AssembleAction.xfadeChain (concatOffsets [3, 3] (2/5)) none
    ∧ actionOutputDur ([3, 3] : List ℚ)
        (AssembleAction.xfadeChain (concatOffsets [3, 3] (2/5)) none) = 28/5 := by
  have h := C1_xfade_offsets [3, 3] (2/5) none (by norm_num)
    (by intro d hd; simp at hd; subst hd; norm_num)
  refine ⟨h.1, ?_⟩
  rw [h.2.2.2]
  norm_num

/-- C2: with `N ≥ 2` fragments all probed, if some fragment is shorter
than `2t`, `concat_scenes` falls back to the hard-cut play-list concat
(`_concat_simple`, music not forwarded), whose output duration is the
exact sum of the fragment durations. -/
theorem C2_short_fragment_fallback (ds : List ℚ) (t : ℚ) (ok : Bool)
    (m : Option String) (h2 : 2 ≤ ds.length)
    (hshort : ∃ d ∈ ds, d < 2 * t) :
    concat_scenes (ds.map some) t ok m = AssembleAction.simpleConcat none
    ∧ actionOutputDur ds (AssembleAction.simpleConcat none) = ds.sum := by
  obtain ⟨d, hd, hlt⟩ := hshort
  have hmin : minD ds < 2 * t := lt_of_le_of_lt (minD_le ds d hd) hlt
  refine ⟨?_, rfl⟩
  rw [concat_scenes_all_probed ds t ok m h2, if_pos hmin]

/-- Witness for C2: fragments `3` and `0.5` with `t = 0.4`
(`0.5 < 0.8`). -/
theorem C2_short_fragment_fallback_witness :
    concat_scenes ([3, 1/2].map some) (2/5) true (some "music.mp3")
      = AssembleAction.simpleConcat none :=
  (C2_short_fragment_fallback [3, 1/2] (2/5) true (some "music.mp3")
    (by norm_num)
    ⟨1/2, by simp, by norm_num⟩).1

/-- C4 (amended): if the xfade compositing command fails while all probes
succeeded and no fragment is too short, `concat_scenes` does not surface
the failure: it falls back to the hard-cut concat and forwards the music
path to it.  This absorption is however not unique in the system: the
driver's music-selection step likewise absorbs a music-service failure
and continues with no music. -/
theorem C4_xfade_failure_fallback (ds : List ℚ) (t : ℚ) (m : Option String)
    (e : String) (h2 : 2 ≤ ds.length) (hmin : ∀ d ∈ ds, 2 * t ≤ d) :
    concat_scenes (ds.map some) t false m = AssembleAction.simpleConcat m
    ∧ selectMusic true true (Except.error e) = none := by
  have hne : ds ≠ [] := by
    intro h
    rw [h] at h2
    simp at h2
  have hnlt : ¬ (minD ds < 2 * t) := not_lt.2 (le_minD _ _ hne hmin)
  refine ⟨?_, rfl⟩
  rw [concat_scenes_all_probed ds t false m h2, if_neg hnlt]
  rfl

/-- Witness for C4's amended statement. -/
theorem C4_xfade_failure_fallback_witness :
    concat_scenes ([3, 3].map some) (2/5) false (some "music.mp3")
      = AssembleAction.simpleConcat (some "music.mp3") :=
  (C4_xfade_failure_fallback [3, 3] (2/5) (some "music.mp3") "oops"
    (by norm_num)
    (by intro d hd; simp at hd; subst hd; norm_num)).1

/-- Counterexample for C4 as stated: the xfade fallback is not the only
absorbed failure — `GenerateVideoUseCase.execute` also absorbs a failing
background-music lookup (the `except` branch continues the run with
`music_path = None` instead of surfacing the error). -/
theorem C4_counterexample :
    selectMusic true true (Except.error "no tracks found") = none := rfl

/-- C9: with music supplied, the fallbacks taken before the xfade attempt
(a failed probe, or a fragment shorter than `2t`) do not forward the
music path, while the fallback taken after a failed xfade command does
forward it. -/
theorem C9_music_dropped_on_prefallbacks (probed : List (Option ℚ))
    (ds : List ℚ) (t : ℚ) (ok : Bool) (m : String)
    (h2 : 2 ≤ probed.length) (h2d : 2 ≤ ds.length) :
    (probed.any (fun d => d.isNone) = true →
      concat_scenes probed t ok (some m) = AssembleAction.simpleConcat none)
    ∧ ((∃ d ∈ ds, d < 2 * t) →
      concat_scenes (ds.map some) t ok (some m)
        = AssembleAction.simpleConcat none)
    ∧ ((∀ d ∈ ds, 2 * t ≤ d) →
      concat_scenes (ds.map some) t false (some m)
        = AssembleAction.simpleConcat (some m)) := by
  refine ⟨?_, ?_, ?_⟩
  · intro hany
    have hl1 : (probed.length == 1) = false := by
      simp
      omega
    have hemp : probed.isEmpty = false := by
      cases probed with
      | nil => simp at h2
      | cons a l => rfl
    simp only [concat_scenes, hl1, hemp, hany]
    rfl
  · intro hshort
    exact (C2_short_fragment_fallback ds t ok (some m) h2d hshort).1
  · intro hmin
    exact (C4_xfade_failure_fallback ds t (some m) "e" h2d hmin).1

/-- C8: a title card rendered for a requested duration `d` lasts exactly
`d` (default `3.0`), with the fade-in starting at `0` and the fade-out
ending exactly at `d`. -/
theorem C8_title_card_duration (d : ℚ) :
    titleCardOutDur (render_title_card d) = d
    ∧ (render_title_card d).fadeInStart = 0
    ∧ (render_title_card d).fadeOutStart + (render_title_card d).fadeOutDur = d
    ∧ titleCardOutDur (render_title_card TITLE_CARD_DEFAULT_DURATION) = 3 := by
  refine ⟨min_self d, rfl, ?_, min_self 3⟩
  show d - 0.5 + 0.5 = d
  ring

/-- C10: `PexelsAdapter.search_video` skips the network if and only if
the destination file exists with size strictly greater than zero, in
which case it returns the asset at the destination path with the assumed
dimensions 1920x1080; otherwise it proceeds to the network search. -/
theorem C10_cache_skip_iff (q p : String) (e : Bool) (s : Nat) :
    ((∃ a, search_video_check q p e s = SearchStep.cached a)
        ↔ (e = true ∧ 0 < s))
    ∧ (e = true → 0 < s →
        search_video_check q p e s = SearchStep.cached ⟨p, 1920, 1080⟩)
    ∧ ((e = false ∨ s = 0) → search_video_check q p e s = SearchStep.network q) := by
  cases e with
  | false =>
    refine ⟨?_, ?_, ?_⟩
    · constructor
      · intro ⟨a, ha⟩
        exact absurd ha (by simp [search_video_check])
      · intro ⟨h, _⟩
        exact absurd h (by simp)
    · intro h
      exact absurd h (by simp)
    · intro _
      rfl
  | true =>
    by_cases hs : 0 < s
    · refine ⟨?_, fun _ _ => by simp [search_video_check, hs], ?_⟩
      · constructor
        · intro _
          exact ⟨rfl, hs⟩
        · intro _
          exact ⟨⟨p, 1920, 1080⟩, by simp [search_video_check, hs]⟩
      · intro h
        rcases h with h | h
        · cases h
        · omega
    · have hs0 : s = 0 := by omega
      subst hs0
      refine ⟨?_, by intro _ h; omega, fun _ => rfl⟩
      constructor
      · intro ⟨a, ha⟩
        exact absurd ha (by simp [search_video_check])
      · intro ⟨_, h⟩
        omega

/-- Witness for C10: an existing non-empty file short-circuits to the
cached 1920x1080 asset. -/
theorem C10_cache_skip_iff_witness :
    search_video_check "ocean waves" "assets/video_raw_0.mp4" true 1
      = SearchStep.cached ⟨"assets/video_raw_0.mp4", 1920, 1080⟩ :=
  (C10_cache_skip_iff "ocean waves" "assets/video_raw_0.mp4" true 1).2.1
    rfl Nat.one_pos

/-- C5: with an output path that does not contain the substring
`"abstract"` (every real pipeline path, e.g. `assets/video_raw_0.mp4`)
and a network that fails every attempt, the `search_video` /
`_fallback_download` recursion never reaches the terminal `RuntimeError`:
for every recursion budget it is still retrying the generic fallback
query.  The guard of `_fallback_download` tests the output *path* for
`"abstract"`, not whether the fallback was already tried, so the
single-retry-then-fail behaviour the spec describes never happens. -/
theorem C5_fallback_unbounded_retry (fuel k : Nat) (q : String) :
    search_video_net (fun _ => NetOutcome.fail) fuel k q
      "assets/video_raw_0.mp4" = SearchFinal.spinning := by
  induction fuel generalizing k q with
  | zero => rfl
  | succ n ih =>
    have habs : strContains "assets/video_raw_0.mp4" "abstract" = false := by
      decide
    simp only [search_video_net, habs]
    exact ih (k + 1) GENERIC_FALLBACK_QUERY

/-- With a positive poll interval and enough fuel to cover the wait
budget, the polling loop never runs out of fuel. -/
theorem pollLoop_ne_fuelOut (status : Nat → HeyGenStatus)
    (maxWait interval : Nat) :
    ∀ fuel elapsed k, maxWait ≤ elapsed + fuel * interval →
      pollLoop status maxWait interval fuel elapsed k ≠ PollOutcome.fuelOut := by
  intro fuel
  induction fuel with
  | zero =>
    intro elapsed k hb
    have hge : ¬ (elapsed < maxWait) := by omega
    simp [pollLoop, hge]
  | succ n ih =>
    intro elapsed k hb
    by_cases hlt : elapsed < maxWait
    · simp only [pollLoop, if_pos hlt]
      cases hs : status k with
      | completed u => cases u <;> simp
      | failed e => simp
      | pending =>
        exact ih (elapsed + interval) (k + 1) (by rw [Nat.succ_mul] at hb; omega)
      | processing =>
        exact ih (elapsed + interval) (k + 1) (by rw [Nat.succ_mul] at hb; omega)
      | unknown s => simp
    · simp [pollLoop, hlt]

/-- Once the fuel covers the wait budget, the loop's result does not
depend on the fuel: the loop terminates on its own. -/
theorem pollLoop_fuel_congr (status : Nat → HeyGenStatus)
    (maxWait interval : Nat) :
    ∀ fuel1 fuel2 elapsed k,
      maxWait ≤ elapsed + fuel1 * interval →
      maxWait ≤ elapsed + fuel2 * interval →
      pollLoop status maxWait interval fuel1 elapsed k
        = pollLoop status maxWait interval fuel2 elapsed k := by
  intro fuel1
  induction fuel1 with
  | zero =>
    intro fuel2 elapsed k hb1 hb2
    have hge : ¬ (elapsed < maxWait) := by omega
    cases fuel2 with
    | zero => rfl
    | succ m => simp [pollLoop, hge]
  | succ n ih =>
    intro fuel2 elapsed k hb1 hb2
    cases fuel2 with
    | zero =>
      have hge : ¬ (elapsed < maxWait) := by omega
      simp [pollLoop, hge]
    | succ m =>
      by_cases hlt : elapsed < maxWait
      · simp only [pollLoop, if_pos hlt]
        cases hs : status k with
        | completed u => cases u <;> rfl
        | failed e => rfl
        | pending =>
          exact ih m (elapsed + interval) (k + 1)
            (by rw [Nat.succ_mul] at hb1; omega)
            (by rw [Nat.succ_mul] at hb2; omega)
        | processing =>
          exact ih m (elapsed + interval) (k + 1)
            (by rw [Nat.succ_mul] at hb1; omega)
            (by rw [Nat.succ_mul] at hb2; omega)
        | unknown s => rfl
      · simp [pollLoop, hlt]

/-- If the remote job never leaves the pending/processing states, the
loop ends in the timeout error. -/
theorem pollLoop_pending_timeout (status : Nat → HeyGenStatus)
    (maxWait interval : Nat)
    (hpend : ∀ k, status k = HeyGenStatus.pending
      ∨ status k = HeyGenStatus.processing) :
    ∀ fuel elapsed k, maxWait ≤ elapsed + fuel * interval →
      pollLoop status maxWait interval fuel elapsed k
        = PollOutcome.timeout maxWait := by
  intro fuel
  induction fuel with
  | zero =>
    intro elapsed k hb
    have hge : ¬ (elapsed < maxWait) := by omega
    simp [pollLoop, hge]
  | succ n ih =>
    intro elapsed k hb
    by_cases hlt : elapsed < maxWait
    · simp only [pollLoop, if_pos hlt]
      rcases hpend k with hs | hs
      · rw [hs]
        exact ih (elapsed + interval) (k + 1) (by rw [Nat.succ_mul] at hb; omega)
      · rw [hs]
        exact ih (elapsed + interval) (k + 1) (by rw [Nat.succ_mul] at hb; omega)
    · simp [pollLoop, hlt]

/-- C6: the avatar status-polling loop terminates for every behaviour of
the remote job: at the default 5-second interval and 600-second budget it
never exhausts its iteration bound, its result is independent of the fuel
as soon as the fuel covers the budget, and a job that never completes
makes it fail with the timeout error carrying the 600-second maximum. -/
theorem C6_poll_terminates (status : Nat → HeyGenStatus) :
    pollVideoStatus status ≠ PollOutcome.fuelOut
    ∧ (∀ fuel, MAX_WAIT_SECONDS ≤ fuel * POLL_INTERVAL →
        pollLoop status MAX_WAIT_SECONDS POLL_INTERVAL fuel 0 0
          = pollVideoStatus status)
    ∧ ((∀ k, status k = HeyGenStatus.pending
          ∨ status k = HeyGenStatus.processing) →
        pollVideoStatus status = PollOutcome.timeout MAX_WAIT_SECONDS) := by
  refine ⟨?_, ?_, ?_⟩
  · exact pollLoop_ne_fuelOut status MAX_WAIT_SECONDS POLL_INTERVAL
      (MAX_WAIT_SECONDS + 1) 0 0
      (by norm_num [MAX_WAIT_SECONDS, POLL_INTERVAL])
  · intro fuel hf
    exact pollLoop_fuel_congr status MAX_WAIT_SECONDS POLL_INTERVAL fuel
      (MAX_WAIT_SECONDS + 1) 0 0 (by omega)
      (by norm_num [MAX_WAIT_SECONDS, POLL_INTERVAL])
  · intro hpend
    exact pollLoop_pending_timeout status MAX_WAIT_SECONDS POLL_INTERVAL hpend
      (MAX_WAIT_SECONDS + 1) 0 0 (by norm_num [MAX_WAIT_SECONDS, POLL_INTERVAL])

/-- Witness for C6: a job that stays `processing` forever times out after
the default 600-second budget. -/
theorem C6_poll_terminates_witness :
    pollVideoStatus (fun _ => HeyGenStatus.processing)
      = PollOutcome.timeout 600 :=
  (C6_poll_terminates (fun _ => HeyGenStatus.processing)).2.2
    (fun _ => Or.inr rfl)

/-- Folding `pickLonger` from a seed yields a word that is the seed or a
member, at least as long as the seed and as every member. -/
theorem pickLonger_foldl_spec (l : List String) :
    ∀ b : String, ∃ w, l.foldl pickLonger (some b) = some w
      ∧ (w = b ∨ w ∈ l) ∧ b.length ≤ w.length
      ∧ ∀ x ∈ l, x.length ≤ w.length := by
  induction l with
  | nil =>
    intro b
    exact ⟨b, rfl, Or.inl rfl, le_refl _, by simp⟩
  | cons a l ih =>
    intro b
    rw [List.foldl_cons]
    by_cases h : b.length < a.length
    · rw [show pickLonger (some b) a = some a from by simp [pickLonger, h]]
      obtain ⟨w, hw, hmem, hlen, hall⟩ := ih a
      refine ⟨w, hw, ?_, le_trans (le_of_lt h) hlen, ?_⟩
      · rcases hmem with rfl | hm
        · exact Or.inr (List.mem_cons_self _ _)
        · exact Or.inr (List.mem_cons_of_mem _ hm)
      · intro x hx
        rcases List.mem_cons.1 hx with rfl | hx2
        · exact hlen
        · exact hall x hx2
    · rw [show pickLonger (some b) a = some b from by simp [pickLonger, h]]
      obtain ⟨w, hw, hmem, hlen, hall⟩ := ih b
      refine ⟨w, hw, ?_, hlen, ?_⟩
      · rcases hmem with rfl | hm
        · exact Or.inl rfl
        · exact Or.inr (List.mem_cons_of_mem _ hm)
      · intro x hx
        rcases List.mem_cons.1 hx with rfl | hx2
        · exact le_trans (not_lt.1 h) hlen
        · exact hall x hx2

/-- For a text with at least one word, `longestWord` returns a word of
the text of maximal length (the first such, as Python `max` does). -/
theorem longestWord_spec (text : String) (hne : wordsOf text ≠ []) :
    ∃ w, longestWord text = some w ∧ w ∈ wordsOf text
      ∧ ∀ x ∈ wordsOf text, x.length ≤ w.length := by
  obtain ⟨a, l, hal⟩ := List.exists_cons_of_ne_nil hne
  unfold longestWord
  rw [hal, List.foldl_cons,
    show pickLonger none a = some a from rfl]
  obtain ⟨w, hw, hmem, hlen, hall⟩ := pickLonger_foldl_spec l a
  refine ⟨w, hw, ?_, ?_⟩
  · rcases hmem with rfl | hm
    · exact List.mem_cons_self _ _
    · exact List.mem_cons_of_mem _ hm
  · intro x hx
    rcases List.mem_cons.1 hx with rfl | hx2
    · exact hlen
    · exact hall x hx2

/-- C7: for a broll/speech line whose custom media path is set (nonempty)
but missing on disk, the driver substitutes the fixed fallback query
`"abstract dark luxury texture cinematic"`; the emphasis word is kept
when already set, and otherwise (when the text has at least one word) is
backfilled with the longest word of the line's text, so the full-screen
emphasis treatment applies. -/
theorem C7_custom_media_fallback (line : ScriptLine) (p rawPath : String)
    (hcm : line.custom_media_path = some p) (hnem : p.isEmpty = false) :
    (resolveMedia line false rawPath).searchRequest = some FALLBACK_QUERY
    ∧ (truthy line.highlight_word = true →
        (resolveMedia line false rawPath).highlightAfter = line.highlight_word)
    ∧ (line.highlight_word = none → wordsOf line.text ≠ [] →
        ∃ w, (resolveMedia line false rawPath).highlightAfter = some w
          ∧ w ∈ wordsOf line.text
          ∧ ∀ x ∈ wordsOf line.text, x.length ≤ w.length) := by
  have hres : resolveMedia line false rawPath =
      ⟨some FALLBACK_QUERY, rawPath,
        if truthy line.highlight_word then line.highlight_word
        else
          match longestWord line.text with
          | some w => some w
          | none => line.highlight_word⟩ := by
    unfold resolveMedia
    rw [hcm]
    simp [hnem]
  refine ⟨by rw [hres], ?_, ?_⟩
  · intro ht
    rw [hres]
    simp [ht]
  · intro hnone hwords
    obtain ⟨w, hw, hmem, hall⟩ := longestWord_spec line.text hwords
    refine ⟨w, ?_, hmem, hall⟩
    rw [hres]
    have ht : truthy line.highlight_word = false := by
      rw [hnone]
      rfl
    simp [ht, hw]

/-- Witness for C7: a line with a missing custom path and no emphasis
word gets the fixed fallback query. -/
theorem C7_custom_media_fallback_witness :
    (resolveMedia
        ⟨"unlock your potential", "growth", "speech", none,
          some "missing.mp4", "broll"⟩
        false "assets/video_raw_0.mp4").searchRequest
      = some FALLBACK_QUERY :=
  (C7_custom_media_fallback
    ⟨"unlock your potential", "growth", "speech", none,
      some "missing.mp4", "broll"⟩
    "missing.mp4" "assets/video_raw_0.mp4" rfl rfl).1

/-- On a filesystem where every path exists with positive size, a single
script line never produces a stock-footage request: the only possible
requests are speech synthesis and avatar generation. -/
theorem lineCalls_cached (line : ScriptLine) (idx : Nat) (hasAvatar : Bool)
    (fexists : String → Bool) (fsize : String → Nat)
    (hex : ∀ p, fexists p = true) (hsz : ∀ p, 0 < fsize p) :
    ∀ c ∈ lineCalls line idx hasAvatar fexists fsize,
      (∃ s, c = ExtCall.ttsRequest s) ∨ (∃ s, c = ExtCall.avatarRequest s) := by
  intro c hc
  have hc2 : ∀ q rp, search_video_check q rp (fexists rp) (fsize rp)
      = SearchStep.cached ⟨rp, 1920, 1080⟩ := by
    intro q rp
    simp [search_video_check, hex rp, hsz rp]
  have hgen : ∀ (s : String) (o : Option String),
      c ∈ (ExtCall.ttsRequest s ::
        (match o with
         | none => ([] : List ExtCall)
         | some _ => [])) → c = ExtCall.ttsRequest s := by
    intro s o hm
    cases o <;> simpa using hm
  simp only [lineCalls, hc2] at hc
  by_cases h1 : (line.scene_type == "title" || line.type == "title") = true
  · rw [if_pos h1] at hc
    cases hc
  · rw [if_neg h1] at hc
    by_cases h2 : (line.scene_type == "avatar" && hasAvatar) = true
    · rw [if_pos h2] at hc
      exact Or.inr ⟨line.text, List.eq_of_mem_singleton hc⟩
    · rw [if_neg h2] at hc
      exact Or.inl ⟨line.text, hgen _ _ hc⟩

/-- C3 (amended): re-running the driver on a project directory where
every expected file already exists (and is non-empty) performs no
stock-footage network request — those are served from the cache check —
but it still performs one speech-synthesis request per broll/speech line
and one avatar request per avatar line: the trace contains only those two
request kinds, never a stock request. -/
theorem C3_rerun_no_stock (lines : List ScriptLine) (hasAvatar : Bool)
    (fexists : String → Bool) (fsize : String → Nat)
    (hex : ∀ p, fexists p = true) (hsz : ∀ p, 0 < fsize p) :
    ∀ c ∈ executeCalls lines hasAvatar fexists fsize,
      (∃ s, c = ExtCall.ttsRequest s) ∨ (∃ s, c = ExtCall.avatarRequest s) := by
  intro c hc
  unfold executeCalls at hc
  rw [List.mem_flatten] at hc
  obtain ⟨l, hl, hcl⟩ := hc
  rw [List.mem_map] at hl
  obtain ⟨pa, _, rfl⟩ := hl
  exact lineCalls_cached pa.2 pa.1 hasAvatar fexists fsize hex hsz c hcl

/-- Witness for C3's amended statement: the call produced on a
fully-cached re-run of a one-line speech script is a speech-synthesis
request, not a stock request. -/
theorem C3_rerun_no_stock_witness :
    (∃ s, ExtCall.ttsRequest "hello world" = ExtCall.ttsRequest s)
    ∨ (∃ s, ExtCall.ttsRequest "hello world" = ExtCall.avatarRequest s) :=
  C3_rerun_no_stock
    [⟨"hello world", "ocean waves", "speech", none, none, "broll"⟩]
    false (fun _ => true) (fun _ => 1) (fun _ => rfl) (fun _ => Nat.one_pos)
    (ExtCall.ttsRequest "hello world") (by decide)

/-- Counterexample for C3 as stated: on a one-line speech script with
every expected file already on disk, the driver still issues an external
speech-synthesis request (`execute` calls `tts.generate_audio`
unconditionally), so the re-run's external-call trace is nonempty. -/
theorem C3_counterexample :
    executeCalls
        [⟨"hello world", "ocean waves", "speech", none, none, "broll"⟩]
        false (fun _ => true) (fun _ => 1)
      = [ExtCall.ttsRequest "hello world"]
    ∧ executeCalls
        [⟨"hello world", "ocean waves", "speech", none, none, "broll"⟩]
        false (fun _ => true) (fun _ => 1) ≠ [] := by
  refine ⟨rfl, ?_⟩
  decide

/-- Witness for C9: a failed probe with music supplied falls back to the
hard-cut concat with no music forwarded. -/
theorem C9_music_dropped_on_prefallbacks_witness :
    concat_scenes [some 3, none] (2/5) true (some "music.mp3")
      = AssembleAction.simpleConcat none :=
  (C9_music_dropped_on_prefallbacks [some 3, none] [3, 3] (2/5) true
    "music.mp3" (by norm_num) (by norm_num)).1 rfl
